import Mathlib

/-
Verification development for the virtual_rainforest core layer.

This file gives a shallow embedding, in Lean 4, of the configuration merge
engine (virtual_rainforest/core/config.py) and of the grid geometry engine
(virtual_rainforest/core/grid.py), and proves or refutes the frozen claims
about them.

Modelling conventions:
* Python dicts are insertion-ordered association lists without duplicate
  keys; dict.update replaces the value of an existing key in place and
  appends new keys at the end.
* TOML values are modelled by the inductive type Toml (integers cover the
  scalar leaves that matter for the merge claims; tables are nested dicts).
* Machine floats are modelled by exact rationals.  Irrational scale
  quantities computed by the source (scale_factor = sqrt(cell_area),
  hexagon side length and apothem, and the square root inside Euclidean
  distances) are kept as explicit parameters of the embedding, since they
  are not representable in the rationals; the claims under study depend
  only on their positivity or on applying them uniformly.
* Fallible code returns Except String, with the source error messages.
-/

/-- A TOML value: an integer scalar leaf or a nested table.  A table is a
Python dict, modelled as an insertion-ordered association list. -/
inductive Toml where
  | int (i : Int) : Toml
  | table (kvs : List (String × Toml)) : Toml

/-- Python dict assignment d[k] = v: replace in place when the key exists,
append otherwise. -/
def dictSet (d : List (String × Toml)) (k : String) (v : Toml) :
    List (String × Toml) :=
  if d.any (fun kv => kv.1 == k) then
    d.map (fun kv => if kv.1 == k then (k, v) else kv)
  else
    d ++ [(k, v)]

/-- Python dict.update(new): assign every key of new into d, in order. -/
def dictUpdate (d new : List (String × Toml)) : List (String × Toml) :=
  new.foldl (fun acc kv => dictSet acc kv.1 kv.2) d

mutual

/-- Dotted leaf paths of a TOML value: a scalar contributes the empty path,
a table prefixes each of its entries. -/
def tomlLeaves : Toml → List (List String)
  | .int _ => [[]]
  | .table kvs => dictLeaves kvs

/-- Dotted leaf paths of a TOML table (as a dict). -/
def dictLeaves : List (String × Toml) → List (List String)
  | [] => []
  | kv :: rest => (tomlLeaves kv.2).map (fun p => kv.1 :: p) ++ dictLeaves rest

end

/-- Embedding of validate_config (virtual_rainforest/core/config.py).

The source iterates over the parsed fragments, folding each one into
config_dict with dict.update.  If config_dict is empty after the loop it
reports a critical error (modelled as none).  Otherwise it calls
jsonschema.validate with instance=toml_dict, where toml_dict is the loop
variable still holding the last fragment parsed.

The result pairs the merged config_dict with the instance that is passed
to the schema validator, so that theorems can talk about both. -/
def validateConfig (fragments : List (List (String × Toml))) :
    Option (List (String × Toml) × List (String × Toml)) :=
  let config_dict := fragments.foldl dictUpdate []
  if config_dict.isEmpty then
    none
  else
    some (config_dict, fragments.getLastD [])

/-- Translate a polygon ring by (xf, yf), as shapely.affinity.translate. -/
def translateRing (ring : List (ℚ × ℚ)) (xf yf : ℚ) : List (ℚ × ℚ) :=
  ring.map (fun p => (p.1 + xf, p.2 + yf))

/-- Scale a polygon ring about the origin, as shapely.affinity.scale with
origin=(0, 0). -/
def scaleRing (ring : List (ℚ × ℚ)) (sx sy : ℚ) : List (ℚ × ℚ) :=
  ring.map (fun p => (sx * p.1, sy * p.2))

/-- The unit-area square prototype ring of make_square_grid. -/
def squareProto : List (ℚ × ℚ) := [(0, 0), (1, 0), (1, 1), (0, 1), (0, 0)]

/-- The row-major flattening of np.indices((ny, nx)): the outer index y runs
over rows, the inner index x over columns, and position x + y * nx of the
flattened array holds entry (y, x). -/
def rowMajor {α : Type} (nx ny : ℕ) (g : ℕ → ℕ → α) : List α :=
  (List.range ny).flatMap (fun y => (List.range nx).map (fun x => g y x))

/-- Embedding of make_square_grid (virtual_rainforest/core/grid.py).

s stands for scale_factor = sqrt(cell_area), kept as a parameter because it
is irrational over the rationals; it is positive whenever cell_area is.
The prototype is the unit square scaled by s about the origin and moved to
(xoff, yoff); cell (x, y) gets id x + y * nx and its polygon is the
prototype translated by (x * s, flipud(y) * s), where flipud sends row y to
row ny - 1 - y. -/
def makeSquareGrid (s : ℚ) (nx ny : ℕ) (xoff yoff : ℚ) :
    List ℕ × List (List (ℚ × ℚ)) :=
  let proto := translateRing (scaleRing squareProto s s) xoff yoff
  let ids := rowMajor nx ny (fun y x => x + y * nx)
  let pos := rowMajor nx ny
    (fun y x => ((x : ℚ) * s, ((ny - 1 - y : ℕ) : ℚ) * s))
  (ids, pos.map (fun p => translateRing proto p.1 p.2))

/-- The hexagon prototype ring of make_hex_grid after scaling by
scale_factor = sqrt(cell_area): the source builds the unit-area ring from
side_length_a1 and apothem_a1 and scales it by s about the origin, and
side = s * side_length_a1, apothem = s * apothem_a1, so the scaled ring is
exactly this ring in the full-size side and apothem. -/
def hexProto (side apothem : ℚ) : List (ℚ × ℚ) :=
  [(apothem, 0), (2 * apothem, side / 2), (2 * apothem, 3 * side / 2),
   (apothem, 2 * side), (0, 3 * side / 2), (0, side / 2), (apothem, 0)]

/-- Embedding of make_hex_grid (virtual_rainforest/core/grid.py).

side and apothem stand for the irrational side length and apothem computed
from cell_area; both are positive whenever cell_area is.  Cell (x, y) gets
id x + y * nx; its polygon is the prototype (moved to (xoff, yoff))
translated by (2 * apothem * x + apothem * (y mod 2), 1.5 * side *
flipud(y)) with the staggered-row offset of the source. -/
def makeHexGrid (side apothem : ℚ) (nx ny : ℕ) (xoff yoff : ℚ) :
    List ℕ × List (List (ℚ × ℚ)) :=
  let proto := translateRing (hexProto side apothem) xoff yoff
  let ids := rowMajor nx ny (fun y x => x + y * nx)
  let pos := rowMajor nx ny
    (fun y x => (2 * apothem * (x : ℚ) + apothem * ((y % 2 : ℕ) : ℚ),
                 3 / 2 * side * ((ny - 1 - y : ℕ) : ℚ)))
  (ids, pos.map (fun p => translateRing proto p.1 p.2))

/-- The planar centroid of a polygon ring (shapely Polygon.centroid): with
cross_i = x_i * y_(i+1) - x_(i+1) * y_i over consecutive ring points, the
centroid is (sum (x_i + x_(i+1)) * cross_i, sum (y_i + y_(i+1)) * cross_i)
divided by 3 * sum cross_i. -/
def ringCentroid (ring : List (ℚ × ℚ)) : ℚ × ℚ :=
  let segs := ring.zip ring.tail
  let cross := fun (pq : (ℚ × ℚ) × (ℚ × ℚ)) =>
    pq.1.1 * pq.2.2 - pq.2.1 * pq.1.2
  let a := (segs.map cross).sum
  let cx := (segs.map (fun pq => (pq.1.1 + pq.2.1) * cross pq)).sum
  let cy := (segs.map (fun pq => (pq.1.2 + pq.2.2) * cross pq)).sum
  if a = 0 then (0, 0) else (cx / (3 * a), cy / (3 * a))

/-- The registered grid types of GRID_REGISTRY. -/
inductive GridType where
  | square
  | hexagon
  | triangle

/-- The state of a Grid instance after __init__: cell_id and polygons from
the creator function, n_cells = len(cell_id), centroids of the polygons,
and the two lazily populated caches, both absent initially. -/
structure Grid where
  cell_id : List ℕ
  polygons : List (List (ℚ × ℚ))
  n_cells : ℕ
  centroids : List (ℚ × ℚ)
  neighboursOpt : Option (List (List ℕ))
  distancesOpt : Option (ℕ → ℕ → ℚ)

/-- Embedding of Grid.__init__: dispatch on the grid type (the triangle
creator raises NotImplementedError), check that the creator returned ids
and polygons of equal length, and populate the attributes.  The scale
parameters s, side and apothem stand for the irrational quantities
sqrt(cell_area), the hexagon side length and the hexagon apothem. -/
def Grid.create (gt : GridType) (s side apothem : ℚ) (nx ny : ℕ)
    (xoff yoff : ℚ) : Except String Grid :=
  let created : Except String (List ℕ × List (List (ℚ × ℚ))) :=
    match gt with
    | .square => .ok (makeSquareGrid s nx ny xoff yoff)
    | .hexagon => .ok (makeHexGrid side apothem nx ny xoff yoff)
    | .triangle => .error "NotImplementedError"
  match created with
  | .error e => .error e
  | .ok idspolys =>
    if idspolys.1.length ≠ idspolys.2.length then
      .error "The creator function generated ids and polygons of unequal length."
    else
      .ok { cell_id := idspolys.1, polygons := idspolys.2,
            n_cells := idspolys.1.length,
            centroids := idspolys.2.map ringCentroid,
            neighboursOpt := none, distancesOpt := none }

/-- The minimum y coordinate over the points of a polygon ring (the ring is
never empty for a constructed grid; the default only covers []). -/
def ringMinY (ring : List (ℚ × ℚ)) : ℚ :=
  ((ring.map Prod.snd).foldr min (ring.headD (0, 0)).2)

/-- Squared Euclidean distance between two planar points.  The source
computes sqrt of this via scipy cdist/pdist; the square root is kept
abstract as a parameter f throughout, since it is irrational over the
rationals.  f (sqdist p q) is the Euclidean distance between p and q. -/
def sqdist (p q : ℚ × ℚ) : ℚ := (p.1 - q.1) ^ 2 + (p.2 - q.2) ^ 2

/-- A cell selection argument of Grid.get_distances: None (meaning every
cell), a single integer id, or a sequence of ids. -/
inductive CellSel where
  | all
  | one (i : ℕ)
  | many (l : List ℕ)

/-- Resolve a cell selection as get_distances does: None becomes
np.arange(n_cells), an int becomes the singleton list, a sequence is kept. -/
def CellSel.resolve (sel : CellSel) (n : ℕ) : List ℕ :=
  match sel with
  | .all => List.range n
  | .one i => [i]
  | .many l => l

/-- scipy cdist on the centroid rows selected by fromIds and toIds: the
matrix of Euclidean distances f (sqdist ..) between all selected pairs. -/
def cdistRows (f : ℚ → ℚ) (cs : List (ℚ × ℚ)) (fromIds toIds : List ℕ) :
    List (List ℚ) :=
  fromIds.map (fun i =>
    toIds.map (fun j => f (sqdist (cs.getD i (0, 0)) (cs.getD j (0, 0)))))

/-- squareform(pdist(cs)): pdist computes the Euclidean distance of every
pair i < j, and squareform mirrors those entries below the diagonal and
puts exact zeros on the diagonal. -/
def fullDistanceMatrix (f : ℚ → ℚ) (cs : List (ℚ × ℚ)) : ℕ → ℕ → ℚ :=
  fun i j =>
    if i < j then f (sqdist (cs.getD i (0, 0)) (cs.getD j (0, 0)))
    else if j < i then f (sqdist (cs.getD j (0, 0)) (cs.getD i (0, 0)))
    else 0

/-- Embedding of Grid.get_distances: resolve the two selections, then
either compute cdist on the selected centroids (no cache) or look the
entries up in the stored full matrix (self._distances[np.ix_(from, to)]). -/
def Grid.getDistances (f : ℚ → ℚ) (g : Grid) (cellFrom cellTo : CellSel) :
    List (List ℚ) :=
  let fromIds := cellFrom.resolve g.n_cells
  let toIds := cellTo.resolve g.n_cells
  match g.distancesOpt with
  | none => cdistRows f g.centroids fromIds toIds
  | some dm => fromIds.map (fun i => toIds.map (fun j => dm i j))

/-- Embedding of Grid.populate_distances: store squareform(pdist(centroids))
as the full distance matrix cache. -/
def Grid.populateDistances (f : ℚ → ℚ) (g : Grid) : Grid :=
  { g with distancesOpt := some (fullDistanceMatrix f g.centroids) }

/-- np.where(row <= d)[1] for the single row of a 1 x n distance matrix:
the column indices whose entry is at most d. -/
def whereRowLE (row : List ℚ) (d : ℚ) : List ℕ :=
  (List.range row.length).filter (fun j => row.getD j 0 ≤ d)

/-- Embedding of Grid.set_neighbours with a distance threshold: for every
idx in cell_id, take the 1 x n matrix get_distances(idx, cell_id) and keep
the column indices within the distance. -/
def Grid.setNeighbours (f : ℚ → ℚ) (g : Grid) (d : ℚ) : Grid :=
  { g with neighboursOpt := some (g.cell_id.map (fun idx =>
      whereRowLE ((g.getDistances f (.one idx) (.many g.cell_id)).headD []) d)) }

/-- Embedding of the Grid.neighbours property: raise AttributeError when
the neighbour list has not been computed yet. -/
def Grid.neighbours (g : Grid) : Except String (List (List ℕ)) :=
  match g.neighboursOpt with
  | none => .error "Neighbours not yet defined: use set_neighbours."
  | some nb => .ok nb

/-- One GeoJSON feature of Grid._get_geojson: the rounded exterior ring
coordinates and the properties cell_id, cell_cx and cell_cy. -/
structure GeoFeature where
  ringCoords : List (ℚ × ℚ)
  cell_id : ℕ
  cell_cx : ℚ
  cell_cy : ℚ

/-- Embedding of Grid._get_geojson: one feature per (idx, poly) pair of
zip(cell_id, polygons); the centroid properties are read as
self.centroids[idx], using the cell id itself as a positional index into
the centroids array.  r models np.round at the requested precision. -/
def Grid.getGeojson (r : ℚ → ℚ) (g : Grid) : List GeoFeature :=
  (g.cell_id.zip g.polygons).map (fun ip =>
    { ringCoords := ip.2.map (fun p => (r p.1, r p.2)),
      cell_id := ip.1,
      cell_cx := r (g.centroids.getD ip.1 (0, 0)).1,
      cell_cy := r (g.centroids.getD ip.1 (0, 0)).2 })

/-- Embedding of Grid.map_xy_to_cell_id, generic in the point geometry: a
cell polygon is modelled by its point-intersection test (shapely
Polygon.intersects on a Point, true on the closed polygon including its
boundary).  The coordinate arrays are 1-dimensional by construction (Lean
lists); the unequal-length check is the source's shape check, and each
point is tested against every cell of zip(cell_id, polygons). -/
def mapXYToCellId {X Y : Type} (cell_id : List ℕ) (polys : List (X × Y → Bool))
    (xs : List X) (ys : List Y) : Except String (List (List ℕ)) :=
  if xs.length ≠ ys.length then
    .error "The x/y coordinates are of unequal length"
  else
    .ok ((xs.zip ys).map (fun pt =>
      ((cell_id.zip polys).filter (fun ip => ip.2 pt)).map (fun ip => ip.1)))

/-- Python tuple comparison on the (cell id, x index, y index) triples that
map_xy_to_cell_indexing sorts: lexicographic order. -/
def tripLE (a b : ℕ × ℕ × ℕ) : Prop :=
  a.1 < b.1 ∨ (a.1 = b.1 ∧ (a.2.1 < b.2.1 ∨ (a.2.1 = b.2.1 ∧ a.2.2 ≤ b.2.2)))

instance : DecidableRel tripLE := fun a b => by
  unfold tripLE; infer_instance

instance : IsTotal (ℕ × ℕ × ℕ) tripLE where
  total a b := by
    unfold tripLE
    rcases Nat.lt_trichotomy a.1 b.1 with h | h | h
    · exact Or.inl (Or.inl h)
    · rcases Nat.lt_trichotomy a.2.1 b.2.1 with h2 | h2 | h2
      · exact Or.inl (Or.inr ⟨h, Or.inl h2⟩)
      · rcases Nat.le_total a.2.2 b.2.2 with h3 | h3
        · exact Or.inl (Or.inr ⟨h, Or.inr ⟨h2, h3⟩⟩)
        · exact Or.inr (Or.inr ⟨h.symm, Or.inr ⟨h2.symm, h3⟩⟩)
      · exact Or.inr (Or.inr ⟨h.symm, Or.inl h2⟩)
    · exact Or.inr (Or.inl h)

instance : IsTrans (ℕ × ℕ × ℕ) tripLE where
  trans a b c hab hbc := by
    unfold tripLE at *
    rcases hab with h1 | ⟨e1, h1⟩
    · rcases hbc with h2 | ⟨e2, h2⟩
      · exact Or.inl (h1.trans h2)
      · exact Or.inl (e2 ▸ h1)
    · rcases hbc with h2 | ⟨e2, h2⟩
      · exact Or.inl (e1 ▸ h2)
      · refine Or.inr ⟨e1.trans e2, ?_⟩
        rcases h1 with h1 | ⟨f1, h1⟩
        · rcases h2 with h2 | ⟨f2, h2⟩
          · exact Or.inl (h1.trans h2)
          · exact Or.inl (f2 ▸ h1)
        · rcases h2 with h2 | ⟨f2, h2⟩
          · exact Or.inl (f1 ▸ h2)
          · exact Or.inr ⟨f1.trans f2, h1.trans h2⟩

/-- cells_found of map_xy_to_cell_indexing: collapse the cell map to the
first matched id per point (each list has length at most one at this
stage) and drop the points that matched nothing. -/
def foundCells (cell_map : List (List ℕ)) : List ℕ :=
  (cell_map.map (fun mp => mp.head?)).filterMap id

/-- The cells list of map_xy_to_cell_indexing: the (mapped id, x index,
y index) triples of the points that matched a cell, in point order. -/
def cellsTriples (cell_map : List (List ℕ)) (xIdx yIdx : List ℕ) :
    List (ℕ × ℕ × ℕ) :=
  ((cell_map.map (fun mp => mp.head?)).zip (xIdx.zip yIdx)).filterMap
    (fun m => match m.1 with
              | some i => some (i, m.2.1, m.2.2)
              | none => none)

/-- The tail of map_xy_to_cell_indexing after the cell map and the index
arrays are in hand: the shape check on the provided indices, the
strictness check on points outside the grid, the boundary check, the
coverage and multiplicity checks, and finally the filter-sort-unzip that
produces the indexing arrays.  n_cells is len(cell_id).  Python list.sort
on the triples is a stable comparison sort, modelled by insertion sort
under the lexicographic tuple order. -/
def mapIndexingCore (cell_id : List ℕ) (cell_map : List (List ℕ))
    (xIdx yIdx : List ℕ) (xsLen ysLen : ℕ) (strict : Bool) :
    Except String (List ℕ × List ℕ) :=
  if xIdx.length ≠ xsLen ∨ yIdx.length ≠ ysLen then
    .error "Dimensions of x/y indices do not match coordinates"
  else if strict ∧ cell_map.any (fun mp => mp.isEmpty) then
    .error "Mapped points fall outside grid."
  else if cell_map.any (fun mp => 1 < mp.length) then
    .error "Mapped points fall on cell boundaries."
  else if (foundCells cell_map).toFinset ≠ cell_id.toFinset then
    .error "Mapped points do not cover all cells."
  else if (foundCells cell_map).length ≠ cell_id.length then
    .error "Some cells contain more than one point."
  else
    let sorted := (cellsTriples cell_map xIdx yIdx).insertionSort tripLE
    .ok (sorted.map (fun c => c.2.1), sorted.map (fun c => c.2.2))

/-- Embedding of Grid.map_xy_to_cell_indexing: map the points to cell ids,
default the index arrays to sequences along the coordinates when both are
missing (providing exactly one is an error), then run the checks and the
sort of mapIndexingCore. -/
def mapXYToCellIndexing {X Y : Type} (cell_id : List ℕ)
    (polys : List (X × Y → Bool)) (xs : List X) (ys : List Y)
    (xIdxArg yIdxArg : Option (List ℕ)) (strict : Bool) :
    Except String (List ℕ × List ℕ) :=
  match mapXYToCellId cell_id polys xs ys with
  | .error e => .error e
  | .ok cell_map =>
    match xIdxArg, yIdxArg with
    | none, none =>
      mapIndexingCore cell_id cell_map (List.range xs.length)
        (List.range ys.length) xs.length ys.length strict
    | some xi, some yi =>
      mapIndexingCore cell_id cell_map xi yi xs.length ys.length strict
    | _, _ => .error "Only one of x/y indices provided."

lemma rowMajor_length {α : Type} (nx ny : ℕ) (g : ℕ → ℕ → α) :
    (rowMajor nx ny g).length = ny * nx := by
  induction ny with
  | zero => simp [rowMajor]
  | succ n ih =>
    unfold rowMajor at *
    rw [List.range_succ, List.flatMap_append]
    simp [ih, Nat.succ_mul]

lemma rowMajor_getElem? {α : Type} (nx ny : ℕ) (g : ℕ → ℕ → α) (x y : ℕ)
    (hx : x < nx) : y < ny → (rowMajor nx ny g)[x + y * nx]? = some (g y x) := by
  induction ny with
  | zero => intro h; omega
  | succ n ih =>
    intro hy
    unfold rowMajor at *
    rw [List.range_succ, List.flatMap_append]
    rcases Nat.lt_or_ge y n with h | h
    · rw [List.getElem?_append]
      have hlen : ((List.range n).flatMap
          (fun y => (List.range nx).map (fun x => g y x))).length = n * nx := by
        have := rowMajor_length nx n g
        simpa [rowMajor] using this
      have hidx : x + y * nx < n * nx := by
        have h1 : x + y * nx < (y + 1) * nx := by
          rw [Nat.succ_mul]; omega
        have h2 : (y + 1) * nx ≤ n * nx := Nat.mul_le_mul_right nx (by omega)
        omega
      rw [if_pos (by rw [hlen]; exact hidx)]
      exact ih h
    · have hyn : y = n := by omega
      subst hyn
      have hlen : ((List.range y).flatMap
          (fun y => (List.range nx).map (fun x => g y x))).length = y * nx := by
        have := rowMajor_length nx y g
        simpa [rowMajor] using this
      rw [List.getElem?_append_right (by rw [hlen]; omega)]
      rw [hlen]
      have : x + y * nx - y * nx = x := by omega
      rw [this]
      simp [List.getElem?_map, List.getElem?_range hx]

lemma rowMajor_ids (nx ny : ℕ) :
    rowMajor nx ny (fun y x => x + y * nx) = List.range (ny * nx) := by
  induction ny with
  | zero => simp [rowMajor]
  | succ n ih =>
    unfold rowMajor at *
    rw [List.range_succ, List.flatMap_append, ih, Nat.succ_mul, List.range_add]
    simp only [List.flatMap_cons, List.flatMap_nil, List.append_nil]
    congr 1
    apply List.map_congr_left
    intro a _
    omega

lemma sqdist_comm (p q : ℚ × ℚ) : sqdist p q = sqdist q p := by
  unfold sqdist; ring

lemma sqdist_self (p : ℚ × ℚ) : sqdist p p = 0 := by
  unfold sqdist; ring

/-- C1: for the configuration engine of the source (validate_config), two
fragments defining the same dotted leaf key are merged without any fatal
report: the later fragment silently wins.  Moreover, for two fragments with
no overlapping leaf key (a.b versus a.c) the merged tree is not the union
of their leaves: dict.update replaces the whole top-level subtree, so the
leaf a.b of the first fragment is lost.  Both halves contradict the claim;
this theorem evaluates the code at the two failing inputs. -/
theorem claim_C1_merge_without_collision_check :
    (dictLeaves [("a", Toml.int 1)] = [["a"]] ∧
     dictLeaves [("a", Toml.int 2)] = [["a"]] ∧
     validateConfig [[("a", Toml.int 1)], [("a", Toml.int 2)]] =
       some ([("a", Toml.int 2)], [("a", Toml.int 2)])) ∧
    (dictLeaves [("a", Toml.table [("b", Toml.int 1)])] = [["a", "b"]] ∧
     dictLeaves [("a", Toml.table [("c", Toml.int 2)])] = [["a", "c"]] ∧
     validateConfig
        [[("a", Toml.table [("b", Toml.int 1)])],
         [("a", Toml.table [("c", Toml.int 2)])]] =
       some ([("a", Toml.table [("c", Toml.int 2)])],
             [("a", Toml.table [("c", Toml.int 2)])]) ∧
     dictLeaves [("a", Toml.table [("c", Toml.int 2)])] = [["a", "c"]]) :=
  ⟨⟨rfl, rfl, rfl⟩, ⟨rfl, rfl, rfl, rfl⟩⟩

/-- C2: for two non-overlapping fragments, validate_config passes only the
last-parsed fragment (the leftover loop variable toml_dict) to
jsonschema.validate, not the merged tree, and the validated instance
differs from the merged configuration.  This theorem evaluates the code at
such an input. -/
theorem claim_C2_validates_last_fragment_only :
    validateConfig [[("a", Toml.int 1)], [("b", Toml.int 2)]] =
      some ([("a", Toml.int 1), ("b", Toml.int 2)], [("b", Toml.int 2)]) ∧
    ([("b", Toml.int 2)] : List (String × Toml)) ≠
      [("a", Toml.int 1), ("b", Toml.int 2)] :=
  ⟨rfl, by simp⟩

/-- C7: Grid.get_distances returns the same distance matrix whether or not
populate_distances has been stored first: the cached full-matrix lookup
agrees with the on-demand pairwise cdist computation for every pair of
cell selections (a single id, a list of ids, or None meaning every cell).
f is the abstract square root applied to squared distances; f 0 = 0 holds
for the real square root. -/
theorem claim_C7_distance_cache_equivalence (f : ℚ → ℚ) (g : Grid)
    (cellFrom cellTo : CellSel) (hf : f 0 = 0) (hg : g.distancesOpt = none) :
    (g.populateDistances f).getDistances f cellFrom cellTo =
      g.getDistances f cellFrom cellTo := by
  unfold Grid.getDistances Grid.populateDistances
  rw [hg]
  simp only
  unfold cdistRows
  apply List.map_congr_left
  intro i _
  apply List.map_congr_left
  intro j _
  unfold fullDistanceMatrix
  rcases lt_trichotomy i j with h | h | h
  · rw [if_pos h]
  · subst h
    rw [if_neg (lt_irrefl i), if_neg (lt_irrefl i), sqdist_self, hf]
  · rw [if_neg (by omega), if_pos h, sqdist_comm]

/-- Witness for C7 at a concrete grid and concrete selections. -/
theorem claim_C7_distance_cache_equivalence_witness :
    (id (0 : ℚ) = 0) ∧
    ((Grid.mk [0] [[(0, 0)]] 1 [(0, 0)] none none).populateDistances
        id).getDistances id (CellSel.one 0) CellSel.all =
      (Grid.mk [0] [[(0, 0)]] 1 [(0, 0)] none none).getDistances id
        (CellSel.one 0) CellSel.all :=
  ⟨rfl, claim_C7_distance_cache_equivalence id
    (Grid.mk [0] [[(0, 0)]] 1 [(0, 0)] none none)
    (CellSel.one 0) CellSel.all rfl rfl⟩

lemma ringMinY_square (s xoff yoff cx cy : ℚ) (hs : 0 ≤ s) :
    ringMinY (translateRing (translateRing (scaleRing squareProto s s) xoff yoff)
      cx cy) = yoff + cy := by
  unfold ringMinY translateRing scaleRing squareProto
  simp only [List.map_cons, List.map_nil, List.headD_cons, List.foldr_cons,
    List.foldr_nil]
  apply le_antisymm
  · exact le_of_le_of_eq (min_le_left _ _) (by ring)
  · refine le_min (by linarith) (le_min (by linarith) (le_min (by linarith)
      (le_min (by linarith) (le_min (by linarith) (by linarith)))))

lemma ringMinY_hex (side apothem xoff yoff cx cy : ℚ) (hside : 0 ≤ side) :
    ringMinY (translateRing (translateRing (hexProto side apothem) xoff yoff)
      cx cy) = yoff + cy := by
  unfold ringMinY translateRing hexProto
  simp only [List.map_cons, List.map_nil, List.headD_cons, List.foldr_cons,
    List.foldr_nil]
  apply le_antisymm
  · exact le_of_le_of_eq (min_le_left _ _) (by ring)
  · refine le_min (by linarith) (le_min (by linarith) (le_min (by linarith)
      (le_min (by linarith) (le_min (by linarith) (le_min (by linarith)
      (le_min (by linarith) (by linarith)))))))

lemma makeSquareGrid_ids (s xoff yoff : ℚ) (nx ny : ℕ) :
    (makeSquareGrid s nx ny xoff yoff).1 = List.range (ny * nx) :=
  rowMajor_ids nx ny

lemma makeHexGrid_ids (side apothem xoff yoff : ℚ) (nx ny : ℕ) :
    (makeHexGrid side apothem nx ny xoff yoff).1 = List.range (ny * nx) :=
  rowMajor_ids nx ny

lemma makeSquareGrid_polys_length (s xoff yoff : ℚ) (nx ny : ℕ) :
    (makeSquareGrid s nx ny xoff yoff).2.length = ny * nx := by
  unfold makeSquareGrid
  simp [rowMajor_length]

lemma makeHexGrid_polys_length (side apothem xoff yoff : ℚ) (nx ny : ℕ) :
    (makeHexGrid side apothem nx ny xoff yoff).2.length = ny * nx := by
  unfold makeHexGrid
  simp [rowMajor_length]

lemma makeSquareGrid_poly_getD (s xoff yoff : ℚ) (nx ny x y : ℕ)
    (hx : x < nx) (hy : y < ny) :
    (makeSquareGrid s nx ny xoff yoff).2.getD (x + y * nx) [] =
      translateRing (translateRing (scaleRing squareProto s s) xoff yoff)
        ((x : ℚ) * s) (((ny - 1 - y : ℕ) : ℚ) * s) := by
  unfold makeSquareGrid
  simp only
  rw [List.getD_eq_getElem?_getD, List.getElem?_map,
    rowMajor_getElem? nx ny _ x y hx hy]
  rfl

lemma makeHexGrid_poly_getD (side apothem xoff yoff : ℚ) (nx ny x y : ℕ)
    (hx : x < nx) (hy : y < ny) :
    (makeHexGrid side apothem nx ny xoff yoff).2.getD (x + y * nx) [] =
      translateRing (translateRing (hexProto side apothem) xoff yoff)
        (2 * apothem * (x : ℚ) + apothem * ((y % 2 : ℕ) : ℚ))
        (3 / 2 * side * ((ny - 1 - y : ℕ) : ℚ)) := by
  unfold makeHexGrid
  simp only
  rw [List.getD_eq_getElem?_getD, List.getElem?_map,
    rowMajor_getElem? nx ny _ x y hx hy]
  rfl

lemma makeSquareGrid_id_getD (s xoff yoff : ℚ) (nx ny x y : ℕ)
    (hx : x < nx) (hy : y < ny) :
    (makeSquareGrid s nx ny xoff yoff).1.getD (x + y * nx) 0 = x + y * nx := by
  unfold makeSquareGrid
  simp only
  rw [List.getD_eq_getElem?_getD, rowMajor_getElem? nx ny _ x y hx hy]
  rfl

lemma makeHexGrid_id_getD (side apothem xoff yoff : ℚ) (nx ny x y : ℕ)
    (hx : x < nx) (hy : y < ny) :
    (makeHexGrid side apothem nx ny xoff yoff).1.getD (x + y * nx) 0 =
      x + y * nx := by
  unfold makeHexGrid
  simp only
  rw [List.getD_eq_getElem?_getD, rowMajor_getElem? nx ny _ x y hx hy]
  rfl

/-- C3: every grid constructed from a valid combination (square or hexagon
type, at least one cell in each direction, positive cell area so that the
scale quantities s, side and apothem are positive) yields a Grid with
len(cell_id) = len(polygons) = n_cells = nx * ny and pairwise distinct
integer cell ids. -/
theorem claim_C3_grid_invariants (gt : GridType) (s side apothem : ℚ)
    (nx ny : ℕ) (xoff yoff : ℚ)
    (hgt : gt = GridType.square ∨ gt = GridType.hexagon)
    (hnx : 1 ≤ nx) (hny : 1 ≤ ny) (hs : 0 < s) (hside : 0 < side)
    (hap : 0 < apothem) :
    ∃ g : Grid, Grid.create gt s side apothem nx ny xoff yoff = .ok g ∧
      g.cell_id.length = nx * ny ∧ g.polygons.length = nx * ny ∧
      g.n_cells = nx * ny ∧ g.cell_id.Nodup := by
  rcases hgt with h | h <;> subst h
  · have hids := makeSquareGrid_ids s xoff yoff nx ny
    have hpl := makeSquareGrid_polys_length s xoff yoff nx ny
    have hlen : (makeSquareGrid s nx ny xoff yoff).1.length =
        (makeSquareGrid s nx ny xoff yoff).2.length := by
      rw [hids, hpl, List.length_range]
    unfold Grid.create
    simp only
    rw [if_neg (not_not_intro hlen)]
    refine ⟨_, rfl, ?_, ?_, ?_, ?_⟩
    · rw [hids, List.length_range, Nat.mul_comm]
    · rw [hpl, Nat.mul_comm]
    · show (makeSquareGrid s nx ny xoff yoff).1.length = nx * ny
      rw [hids, List.length_range, Nat.mul_comm]
    · rw [hids]; exact List.nodup_range (ny * nx)
  · have hids := makeHexGrid_ids side apothem xoff yoff nx ny
    have hpl := makeHexGrid_polys_length side apothem xoff yoff nx ny
    have hlen : (makeHexGrid side apothem nx ny xoff yoff).1.length =
        (makeHexGrid side apothem nx ny xoff yoff).2.length := by
      rw [hids, hpl, List.length_range]
    unfold Grid.create
    simp only
    rw [if_neg (not_not_intro hlen)]
    refine ⟨_, rfl, ?_, ?_, ?_, ?_⟩
    · rw [hids, List.length_range, Nat.mul_comm]
    · rw [hpl, Nat.mul_comm]
    · show (makeHexGrid side apothem nx ny xoff yoff).1.length = nx * ny
      rw [hids, List.length_range, Nat.mul_comm]
    · rw [hids]; exact List.nodup_range (ny * nx)

/-- Witness for C3 on the 1 x 1 square grid. -/
theorem claim_C3_grid_invariants_witness :
    (GridType.square = GridType.square ∨ GridType.square = GridType.hexagon) ∧
    1 ≤ 1 ∧ (0 : ℚ) < 1 ∧
    ∃ g : Grid, Grid.create GridType.square 1 1 1 1 1 0 0 = .ok g ∧
      g.cell_id.length = 1 * 1 ∧ g.polygons.length = 1 * 1 ∧
      g.n_cells = 1 * 1 ∧ g.cell_id.Nodup :=
  ⟨Or.inl rfl, le_refl 1, one_pos,
   claim_C3_grid_invariants GridType.square 1 1 1 1 1 0 0 (Or.inl rfl)
     (le_refl 1) (le_refl 1) one_pos one_pos one_pos⟩

/-- C6: in both creator functions the cell at column x and row y sits at
flattened position x + y * nx and carries the id x + y * nx, and the y
axis is inverted: for rows y1 < y2 the polygon of the cell in row y2 lies
at a strictly smaller y (northing) coordinate than the polygon of the cell
in row y1 (compared through the minimum y coordinate of the rings). -/
theorem claim_C6_row_major_ids_and_y_inversion (s side apothem xoff yoff : ℚ)
    (nx ny x y y1 y2 : ℕ) (hs : 0 < s) (hside : 0 < side)
    (hx : x < nx) (hy : y < ny) (h12 : y1 < y2) (hy2 : y2 < ny) :
    ((makeSquareGrid s nx ny xoff yoff).1.getD (x + y * nx) 0 = x + y * nx ∧
     (makeHexGrid side apothem nx ny xoff yoff).1.getD (x + y * nx) 0 =
       x + y * nx) ∧
    (ringMinY ((makeSquareGrid s nx ny xoff yoff).2.getD (x + y2 * nx) []) <
       ringMinY ((makeSquareGrid s nx ny xoff yoff).2.getD (x + y1 * nx) []) ∧
     ringMinY ((makeHexGrid side apothem nx ny xoff yoff).2.getD
         (x + y2 * nx) []) <
       ringMinY ((makeHexGrid side apothem nx ny xoff yoff).2.getD
         (x + y1 * nx) [])) := by
  have hy1 : y1 < ny := h12.trans hy2
  refine ⟨⟨makeSquareGrid_id_getD s xoff yoff nx ny x y hx hy,
           makeHexGrid_id_getD side apothem xoff yoff nx ny x y hx hy⟩, ?_, ?_⟩
  · rw [makeSquareGrid_poly_getD s xoff yoff nx ny x y2 hx hy2,
      makeSquareGrid_poly_getD s xoff yoff nx ny x y1 hx hy1,
      ringMinY_square s xoff yoff _ _ hs.le,
      ringMinY_square s xoff yoff _ _ hs.le]
    have hn : ((ny - 1 - y2 : ℕ) : ℚ) < ((ny - 1 - y1 : ℕ) : ℚ) := by
      exact_mod_cast (by omega : ny - 1 - y2 < ny - 1 - y1)
    have := mul_lt_mul_of_pos_right hn hs
    linarith
  · rw [makeHexGrid_poly_getD side apothem xoff yoff nx ny x y2 hx hy2,
      makeHexGrid_poly_getD side apothem xoff yoff nx ny x y1 hx hy1,
      ringMinY_hex side apothem xoff yoff _ _ hside.le,
      ringMinY_hex side apothem xoff yoff _ _ hside.le]
    have hn : ((ny - 1 - y2 : ℕ) : ℚ) < ((ny - 1 - y1 : ℕ) : ℚ) := by
      exact_mod_cast (by omega : ny - 1 - y2 < ny - 1 - y1)
    have h32 : (0 : ℚ) < 3 / 2 * side := by linarith
    have := mul_lt_mul_of_pos_left hn h32
    linarith

/-- Witness for C6 on a 1 x 2 grid (x = 0, y = 0, rows y1 = 0 and y2 = 1). -/
theorem claim_C6_row_major_ids_and_y_inversion_witness :
    (0 : ℚ) < 1 ∧ 0 < 1 ∧ 0 < 2 ∧ 1 < 2 ∧
    (((makeSquareGrid 1 1 2 0 0).1.getD (0 + 0 * 1) 0 = 0 + 0 * 1 ∧
      (makeHexGrid 1 1 1 2 0 0).1.getD (0 + 0 * 1) 0 = 0 + 0 * 1) ∧
     (ringMinY ((makeSquareGrid 1 1 2 0 0).2.getD (0 + 1 * 1) []) <
        ringMinY ((makeSquareGrid 1 1 2 0 0).2.getD (0 + 0 * 1) []) ∧
      ringMinY ((makeHexGrid 1 1 1 2 0 0).2.getD (0 + 1 * 1) []) <
        ringMinY ((makeHexGrid 1 1 1 2 0 0).2.getD (0 + 0 * 1) []))) :=
  ⟨one_pos, Nat.one_pos, by omega, by omega,
   claim_C6_row_major_ids_and_y_inversion 1 1 1 0 0 1 2 0 0 0 1 one_pos
     one_pos Nat.one_pos (by omega) Nat.one_pos (by omega)⟩

/-- C10: for both creator functions the cell id list is exactly the
integers 0, 1, ..., nx * ny - 1 in increasing order (cell_id[k] = k for
every position k), and the GeoJSON export reads the centroid of every
feature as centroids[cell_id], using the cell id itself as a positional
index into the centroids array. -/
theorem claim_C10_ids_identity_and_geojson (s side apothem xoff yoff : ℚ)
    (nx ny : ℕ) (g : Grid) (r : ℚ → ℚ) :
    (makeSquareGrid s nx ny xoff yoff).1 = List.range (nx * ny) ∧
    (makeHexGrid side apothem nx ny xoff yoff).1 = List.range (nx * ny) ∧
    ∀ feat ∈ g.getGeojson r,
      feat.cell_cx = r (g.centroids.getD feat.cell_id (0, 0)).1 ∧
      feat.cell_cy = r (g.centroids.getD feat.cell_id (0, 0)).2 := by
  refine ⟨?_, ?_, ?_⟩
  · rw [makeSquareGrid_ids, Nat.mul_comm]
  · rw [makeHexGrid_ids, Nat.mul_comm]
  · intro feat hf
    unfold Grid.getGeojson at hf
    rcases List.mem_map.mp hf with ⟨ip, _, rfl⟩
    exact ⟨rfl, rfl⟩

/-- C8: accessing Grid.neighbours before set_neighbours raises an error,
and after set_neighbours(distance = d) the entry for cell i is exactly the
list of cell ids whose centroid lies within Euclidean distance d of the
centroid of cell i (f is the abstract square root, so f (sqdist p q) is
the Euclidean distance): a distance-threshold neighbourhood, not polygon
adjacency.  The grid is in its constructed state: no distance cache and
cell_id = range n_cells, as every creator produces. -/
theorem claim_C8_neighbours_error_and_threshold (f : ℚ → ℚ) (g : Grid)
    (d : ℚ) (hg : g.distancesOpt = none)
    (hid : g.cell_id = List.range g.n_cells) :
    (g.neighboursOpt = none →
      g.neighbours = .error "Neighbours not yet defined: use set_neighbours.") ∧
    (g.setNeighbours f d).neighbours =
      .ok ((List.range g.n_cells).map (fun i =>
        (List.range g.n_cells).filter (fun j =>
          f (sqdist (g.centroids.getD i (0, 0))
              (g.centroids.getD j (0, 0))) ≤ d))) := by
  constructor
  · intro h
    unfold Grid.neighbours
    rw [h]
  · unfold Grid.setNeighbours Grid.neighbours
    simp only
    congr 1
    rw [hid]
    apply List.map_congr_left
    intro i _
    simp only [Grid.getDistances, CellSel.resolve, hg, cdistRows, hid,
      List.map_cons, List.map_nil, List.headD_cons]
    unfold whereRowLE
    rw [List.length_map, List.length_range]
    apply List.filter_congr
    intro j hj
    have hjn : j < g.n_cells := List.mem_range.mp hj
    simp [List.getD_eq_getElem?_getD, List.getElem?_map, List.getElem?_range hjn]

/-- Witness for C8 on a one-cell grid with threshold 0. -/
theorem claim_C8_neighbours_error_and_threshold_witness :
    ((Grid.mk [0] [[(0, 0)]] 1 [(0, 0)] none none).distancesOpt = none) ∧
    ((Grid.mk [0] [[(0, 0)]] 1 [(0, 0)] none none).cell_id =
      List.range (Grid.mk [0] [[(0, 0)]] 1 [(0, 0)] none none).n_cells) ∧
    (((Grid.mk [0] [[(0, 0)]] 1 [(0, 0)] none none).neighboursOpt = none →
      (Grid.mk [0] [[(0, 0)]] 1 [(0, 0)] none none).neighbours =
        .error "Neighbours not yet defined: use set_neighbours.") ∧
    ((Grid.mk [0] [[(0, 0)]] 1 [(0, 0)] none none).setNeighbours id
        0).neighbours =
      .ok ((List.range
          (Grid.mk [0] [[(0, 0)]] 1 [(0, 0)] none none).n_cells).map (fun i =>
        (List.range
            (Grid.mk [0] [[(0, 0)]] 1 [(0, 0)] none none).n_cells).filter
          (fun j =>
            id (sqdist
              ((Grid.mk [0] [[(0, 0)]] 1 [(0, 0)] none none).centroids.getD i
                (0, 0))
              ((Grid.mk [0] [[(0, 0)]] 1 [(0, 0)] none none).centroids.getD j
                (0, 0))) ≤ 0)))) :=
  ⟨rfl, rfl, claim_C8_neighbours_error_and_threshold id
    (Grid.mk [0] [[(0, 0)]] 1 [(0, 0)] none none) 0 rfl rfl⟩

lemma nodupOfCardLen (l : List ℕ) (h : l.toFinset.card = l.length) :
    l.Nodup := by
  have hd : l.dedup.length = l.length := by
    rw [← List.card_toFinset]; exact h
  have he := (List.dedup_sublist l).eq_of_length hd
  rw [← he]
  exact List.nodup_dedup l

lemma mapXYToCellId_ok_inv {X Y : Type} {cell_id : List ℕ}
    {polys : List (X × Y → Bool)} {xs : List X} {ys : List Y}
    {cm : List (List ℕ)}
    (h : mapXYToCellId cell_id polys xs ys = .ok cm) :
    xs.length = ys.length ∧
    cm = (xs.zip ys).map (fun pt =>
      ((cell_id.zip polys).filter (fun ip => ip.2 pt)).map (fun ip => ip.1)) := by
  unfold mapXYToCellId at h
  split at h
  · cases h
  · next hlen =>
    refine ⟨not_ne_iff.mp hlen, ?_⟩
    exact (Except.ok.inj h).symm

lemma mapXYToCellIndexing_eq_core {X Y : Type} {cell_id : List ℕ}
    {polys : List (X × Y → Bool)} {xs : List X} {ys : List Y}
    {cm : List (List ℕ)} (strict : Bool)
    (hcm : mapXYToCellId cell_id polys xs ys = .ok cm) :
    mapXYToCellIndexing cell_id polys xs ys none none strict =
      mapIndexingCore cell_id cm (List.range xs.length)
        (List.range ys.length) xs.length ys.length strict := by
  unfold mapXYToCellIndexing
  rw [hcm]

lemma mapIndexingCore_cover_error (cell_id : List ℕ) (cm : List (List ℕ))
    (xIdx yIdx : List ℕ) (xl yl : ℕ) (strict : Bool)
    (hx : xIdx.length = xl) (hy : yIdx.length = yl)
    (hso : ¬(strict = true ∧ cm.any (fun mp => mp.isEmpty) = true))
    (hb : cm.any (fun mp => 1 < mp.length) = false)
    (hne : (foundCells cm).toFinset ≠ cell_id.toFinset) :
    mapIndexingCore cell_id cm xIdx yIdx xl yl strict =
      .error "Mapped points do not cover all cells." := by
  unfold mapIndexingCore
  rw [if_neg (by simp [hx, hy]), if_neg hso, if_neg (by simp [hb]),
    if_pos hne]

lemma mapIndexingCore_multi_error (cell_id : List ℕ) (cm : List (List ℕ))
    (xIdx yIdx : List ℕ) (xl yl : ℕ) (strict : Bool)
    (hx : xIdx.length = xl) (hy : yIdx.length = yl)
    (hso : ¬(strict = true ∧ cm.any (fun mp => mp.isEmpty) = true))
    (hb : cm.any (fun mp => 1 < mp.length) = false)
    (heq : (foundCells cm).toFinset = cell_id.toFinset)
    (hlen : (foundCells cm).length ≠ cell_id.length) :
    mapIndexingCore cell_id cm xIdx yIdx xl yl strict =
      .error "Some cells contain more than one point." := by
  unfold mapIndexingCore
  rw [if_neg (by simp [hx, hy]), if_neg hso, if_neg (by simp [hb]),
    if_neg (not_not_intro heq), if_pos hlen]

lemma mapIndexingCore_ok_inv {cell_id : List ℕ} {cm : List (List ℕ)}
    {xIdx yIdx : List ℕ} {xl yl : ℕ} {strict : Bool} {xi yi : List ℕ}
    (h : mapIndexingCore cell_id cm xIdx yIdx xl yl strict = .ok (xi, yi)) :
    ¬(strict = true ∧ cm.any (fun mp => mp.isEmpty) = true) ∧
    cm.any (fun mp => 1 < mp.length) = false ∧
    (foundCells cm).toFinset = cell_id.toFinset ∧
    (foundCells cm).length = cell_id.length ∧
    xi = ((cellsTriples cm xIdx yIdx).insertionSort tripLE).map
      (fun c => c.2.1) ∧
    yi = ((cellsTriples cm xIdx yIdx).insertionSort tripLE).map
      (fun c => c.2.2) := by
  unfold mapIndexingCore at h
  split at h
  · cases h
  · split at h
    · cases h
    · next hso =>
      split at h
      · cases h
      · next hb =>
        split at h
        · cases h
        · next hne =>
          split at h
          · cases h
          · next hlen =>
            have hp := Except.ok.inj h
            exact ⟨hso, by simpa using hb, not_ne_iff.mp hne,
              not_ne_iff.mp hlen, (congrArg Prod.fst hp).symm,
              (congrArg Prod.snd hp).symm⟩

lemma mapIndexingCore_outside_iff (cell_id : List ℕ) (cm : List (List ℕ))
    (xIdx yIdx : List ℕ) (xl yl : ℕ) (strict : Bool)
    (hx : xIdx.length = xl) (hy : yIdx.length = yl) :
    mapIndexingCore cell_id cm xIdx yIdx xl yl strict =
      .error "Mapped points fall outside grid." ↔
    (strict = true ∧ cm.any (fun mp => mp.isEmpty) = true) := by
  unfold mapIndexingCore
  rw [if_neg (by simp [hx, hy])]
  constructor
  · intro h
    by_contra hc
    rw [if_neg hc] at h
    split at h
    · injection h with h
      exact absurd h (by decide)
    · split at h
      · injection h with h
        exact absurd h (by decide)
      · split at h
        · injection h with h
          exact absurd h (by decide)
        · cases h
  · intro hc
    rw [if_pos hc]

lemma cellsTriples_map_fst :
    ∀ (cim : List (Option ℕ)) (z : List (ℕ × ℕ)), cim.length ≤ z.length →
    ((cim.zip z).filterMap (fun m => match m.1 with
        | some i => some (i, m.2.1, m.2.2)
        | none => none)).map (fun c => c.1) = cim.filterMap id := by
  intro cim
  induction cim with
  | nil => intro z _; simp
  | cons o rest ih =>
    intro z hl
    cases z with
    | nil => simp at hl
    | cons zh zt =>
      cases o with
      | none =>
        simp only [List.zip_cons_cons, List.filterMap_cons, List.length_cons] at *
        exact ih zt (by omega)
      | some i =>
        simp only [List.zip_cons_cons, List.filterMap_cons, List.length_cons,
          List.map_cons] at *
        rw [ih zt (by omega)]
        simp

lemma cellsTriples_mem :
    ∀ (cim : List (Option ℕ)) (z : List (ℕ × ℕ)) (c : ℕ × ℕ × ℕ),
    c ∈ (cim.zip z).filterMap (fun m => match m.1 with
        | some i => some (i, m.2.1, m.2.2)
        | none => none) →
    ∃ j, j < cim.length ∧ j < z.length ∧ cim.getD j none = some c.1 ∧
      z.getD j (0, 0) = c.2 := by
  intro cim
  induction cim with
  | nil => intro z c hc; simp at hc
  | cons o rest ih =>
    intro z c hc
    cases z with
    | nil => simp at hc
    | cons zh zt =>
      cases o with
      | none =>
        simp only [List.zip_cons_cons, List.filterMap_cons] at hc
        rcases ih zt c hc with ⟨j, hj1, hj2, hj3, hj4⟩
        exact ⟨j + 1, by simpa using hj1, by simpa using hj2, hj3, hj4⟩
      | some i =>
        simp only [List.zip_cons_cons, List.filterMap_cons, List.mem_cons] at hc
        rcases hc with hc | hc
        · subst hc
          exact ⟨0, by simp, by simp, rfl, rfl⟩
        · rcases ih zt c hc with ⟨j, hj1, hj2, hj3, hj4⟩
          exact ⟨j + 1, by simpa using hj1, by simpa using hj2, hj3, hj4⟩

lemma zip_range_getD (m j : ℕ) (hj : j < m) :
    ((List.range m).zip (List.range m)).getD j (0, 0) = (j, j) := by
  have h := List.zip_map' (fun a => a) (fun a => a) (List.range m)
  simp only [List.map_id_fun, id] at h
  rw [show (List.range m).zip (List.range m) =
      (List.range m).map (fun a => (a, a)) by
    simpa using h]
  rw [List.getD_eq_getElem?_getD, List.getElem?_map, List.getElem?_range hj]
  rfl

/-- C4: for every call in which each point maps to at most one cell and in
which no strict outside-grid failure occurs (strict is false or every point
matched a cell), map_xy_to_cell_indexing succeeds only when the matched
cells form a bijection onto the full grid cell id set: a matched id set
different from the grid id set fails with the do-not-cover error (this
check runs first), and duplicated matches with full coverage fail with the
more-than-one-point error. -/
theorem claim_C4_bijective (X Y : Type) (cell_id : List ℕ)
    (polys : List (X × Y → Bool)) (xs : List X) (ys : List Y)
    (strict : Bool) (cm : List (List ℕ)) (hnd : cell_id.Nodup)
    (hcm : mapXYToCellId cell_id polys xs ys = .ok cm)
    (hone : ∀ mp ∈ cm, mp.length ≤ 1)
    (hso : ¬(strict = true ∧ ∃ mp ∈ cm, mp = [])) :
    ((foundCells cm).toFinset ≠ cell_id.toFinset →
      mapXYToCellIndexing cell_id polys xs ys none none strict =
        .error "Mapped points do not cover all cells.") ∧
    ((foundCells cm).toFinset = cell_id.toFinset → ¬(foundCells cm).Nodup →
      mapXYToCellIndexing cell_id polys xs ys none none strict =
        .error "Some cells contain more than one point.") ∧
    (∀ xi yi, mapXYToCellIndexing cell_id polys xs ys none none strict =
        .ok (xi, yi) →
      (foundCells cm).toFinset = cell_id.toFinset ∧
        (foundCells cm).Nodup) := by
  have hso' : ¬(strict = true ∧ cm.any (fun mp => mp.isEmpty) = true) := by
    rintro ⟨h1, h2⟩
    apply hso
    refine ⟨h1, ?_⟩
    rcases List.any_eq_true.mp h2 with ⟨mp, hmp, hemp⟩
    exact ⟨mp, hmp, by simpa using hemp⟩
  have hb : cm.any (fun mp => 1 < mp.length) = false := by
    rw [List.any_eq_false]
    intro mp hmp
    simpa using Nat.not_lt.mpr (hone mp hmp)
  refine ⟨?_, ?_, ?_⟩
  · intro hne
    rw [mapXYToCellIndexing_eq_core strict hcm]
    exact mapIndexingCore_cover_error _ _ _ _ _ _ _
      (List.length_range _) (List.length_range _) hso' hb hne
  · intro heq hnnd
    have hlen : (foundCells cm).length ≠ cell_id.length := by
      intro hl
      exact hnnd (nodupOfCardLen _ (by
        rw [heq, List.toFinset_card_of_nodup hnd, hl]))
    rw [mapXYToCellIndexing_eq_core strict hcm]
    exact mapIndexingCore_multi_error _ _ _ _ _ _ _
      (List.length_range _) (List.length_range _) hso' hb heq hlen
  · intro xi yi hok
    rw [mapXYToCellIndexing_eq_core strict hcm] at hok
    rcases mapIndexingCore_ok_inv hok with ⟨_, _, heq, hlen, _, _⟩
    exact ⟨heq, nodupOfCardLen _ (by
      rw [heq, List.toFinset_card_of_nodup hnd, hlen])⟩

/-- Counterexample to C4 as stated: on a two-cell grid with two points in
cell 0, cell 0 is matched by more than one point, yet the call fails with
the do-not-cover error, not the more-than-one-point error the claim
names. -/
theorem claim_C4_counterexample :
    mapXYToCellId [0, 1] [fun (_ : ℕ × ℕ) => true, fun _ => false]
        [0, 1] [0, 0] = .ok [[0], [0]] ∧
    mapXYToCellIndexing [0, 1] [fun (_ : ℕ × ℕ) => true, fun _ => false]
        [0, 1] [0, 0] none none true =
      .error "Mapped points do not cover all cells." ∧
    mapXYToCellIndexing [0, 1] [fun (_ : ℕ × ℕ) => true, fun _ => false]
        [0, 1] [0, 0] none none true ≠
      .error "Some cells contain more than one point." := by
  refine ⟨rfl, rfl, fun h => ?_⟩
  have h2 : (Except.error "Mapped points do not cover all cells." :
      Except String (List ℕ × List ℕ)) =
      Except.error "Some cells contain more than one point." := by
    calc (Except.error "Mapped points do not cover all cells." :
        Except String (List ℕ × List ℕ))
        = mapXYToCellIndexing [0, 1]
            [fun (_ : ℕ × ℕ) => true, fun _ => false]
            [0, 1] [0, 0] none none true := by rfl
      _ = _ := h
  injection h2 with h3
  exact absurd h3 (by decide)

/-- C5: a point intersecting exactly one cell polygon yields a
single-element match in map_xy_to_cell_id; a point intersecting none
yields an empty match, and map_xy_to_cell_indexing reports the
outside-grid error exactly when strict is true; a point intersecting at
least two polygons yields a match of length at least 2 and, whenever the
strict outside-grid error does not preempt it, map_xy_to_cell_indexing
fails with the boundaries error for either value of strict. -/
theorem claim_C5_point_match_outcomes (X Y : Type) (cell_id : List ℕ)
    (polys : List (X × Y → Bool)) (xs : List X) (ys : List Y)
    (strict : Bool) (cm : List (List ℕ)) (k : ℕ) (pt : X × Y)
    (hcm : mapXYToCellId cell_id polys xs ys = .ok cm)
    (hk : (xs.zip ys)[k]? = some pt) :
    ((cell_id.zip polys).countP (fun ip => ip.2 pt) = 1 →
      ∃ c, cm[k]? = some [c]) ∧
    ((cell_id.zip polys).countP (fun ip => ip.2 pt) = 0 →
      cm[k]? = some [] ∧
      (mapXYToCellIndexing cell_id polys xs ys none none strict =
          .error "Mapped points fall outside grid." ↔ strict = true)) ∧
    (2 ≤ (cell_id.zip polys).countP (fun ip => ip.2 pt) →
      (∃ mp, cm[k]? = some mp ∧ 2 ≤ mp.length) ∧
      (¬(strict = true ∧ ∃ mp ∈ cm, mp = []) →
        mapXYToCellIndexing cell_id polys xs ys none none strict =
          .error "Mapped points fall on cell boundaries.")) := by
  rcases mapXYToCellId_ok_inv hcm with ⟨hxy, hcmv⟩
  have hkk : cm[k]? = some
      (((cell_id.zip polys).filter (fun ip => ip.2 pt)).map (fun ip => ip.1)) := by
    rw [hcmv, List.getElem?_map, hk]
    rfl
  have hflen : (((cell_id.zip polys).filter
      (fun ip => ip.2 pt)).map (fun ip => ip.1)).length =
      (cell_id.zip polys).countP (fun ip => ip.2 pt) := by
    rw [List.length_map, List.countP_eq_length_filter]
  refine ⟨?_, ?_, ?_⟩
  · intro h1
    rcases List.length_eq_one.mp (by rw [hflen, h1]) with ⟨c, hc⟩
    exact ⟨c, by rw [hkk, hc]⟩
  · intro h0
    have hnil : ((cell_id.zip polys).filter
        (fun ip => ip.2 pt)).map (fun ip => ip.1) = [] :=
      List.length_eq_zero.mp (by rw [hflen, h0])
    have hk0 : cm[k]? = some [] := by rw [hkk, hnil]
    refine ⟨hk0, ?_⟩
    have hmem : ([] : List ℕ) ∈ cm := List.getElem?_mem hk0
    rw [mapXYToCellIndexing_eq_core strict hcm,
      mapIndexingCore_outside_iff _ _ _ _ _ _ _
        (List.length_range _) (List.length_range _)]
    constructor
    · rintro ⟨h1, _⟩; exact h1
    · intro h1
      exact ⟨h1, List.any_eq_true.mpr ⟨[], hmem, by simp⟩⟩
  · intro h2
    have hlen2 : 2 ≤ (((cell_id.zip polys).filter
        (fun ip => ip.2 pt)).map (fun ip => ip.1)).length := by
      rw [hflen]; exact h2
    refine ⟨⟨_, hkk, hlen2⟩, ?_⟩
    intro hso
    have hso' : ¬(strict = true ∧ cm.any (fun mp => mp.isEmpty) = true) := by
      rintro ⟨hs1, hs2⟩
      apply hso
      refine ⟨hs1, ?_⟩
      rcases List.any_eq_true.mp hs2 with ⟨mp, hmp, hemp⟩
      exact ⟨mp, hmp, by simpa using hemp⟩
    rw [mapXYToCellIndexing_eq_core strict hcm]
    unfold mapIndexingCore
    rw [if_neg (by simp), if_neg hso', if_pos]
    refine List.any_eq_true.mpr
      ⟨((cell_id.zip polys).filter (fun ip => ip.2 pt)).map (fun ip => ip.1),
       List.getElem?_mem hkk, ?_⟩
    simp only [decide_eq_true_eq]
    omega

/-- Counterexample to C5 as stated: with one point outside the grid and
one point on a shared boundary, under strict the call fails with the
outside-grid error, not the boundaries error the claim says is always
reported. -/
theorem claim_C5_counterexample :
    mapXYToCellId [0, 1]
        [fun (p : ℕ × ℕ) => p.1 == 1, fun p => p.1 == 1] [0, 1] [0, 0] =
      .ok [[], [0, 1]] ∧
    mapXYToCellIndexing [0, 1]
        [fun (p : ℕ × ℕ) => p.1 == 1, fun p => p.1 == 1] [0, 1] [0, 0]
        none none true =
      .error "Mapped points fall outside grid." ∧
    mapXYToCellIndexing [0, 1]
        [fun (p : ℕ × ℕ) => p.1 == 1, fun p => p.1 == 1] [0, 1] [0, 0]
        none none true ≠
      .error "Mapped points fall on cell boundaries." := by
  refine ⟨rfl, rfl, fun h => ?_⟩
  have h2 : (Except.error "Mapped points fall outside grid." :
      Except String (List ℕ × List ℕ)) =
      Except.error "Mapped points fall on cell boundaries." := by
    calc (Except.error "Mapped points fall outside grid." :
        Except String (List ℕ × List ℕ))
        = mapXYToCellIndexing [0, 1]
            [fun (p : ℕ × ℕ) => p.1 == 1, fun p => p.1 == 1] [0, 1] [0, 0]
            none none true := by rfl
      _ = _ := h
  injection h2 with h3
  exact absurd h3 (by decide)

/-- C9: every successful call of map_xy_to_cell_indexing (with the default
index arrays) returns index arrays of length exactly n_cells, ordered by
ascending cell id: the k-th entries pick the input point whose match is
the k-th smallest grid cell id, and points that matched no cell (allowed
when strict is false) never appear in the result. -/
theorem claim_C9_indexing_sorted_by_cell_id (X Y : Type) (cell_id : List ℕ)
    (polys : List (X × Y → Bool)) (xs : List X) (ys : List Y)
    (strict : Bool) (cm : List (List ℕ)) (xi yi : List ℕ)
    (hnd : cell_id.Nodup)
    (hcm : mapXYToCellId cell_id polys xs ys = .ok cm)
    (hok : mapXYToCellIndexing cell_id polys xs ys none none strict =
      .ok (xi, yi)) :
    xi.length = cell_id.length ∧ yi.length = cell_id.length ∧
    (∀ k, k < cell_id.length →
      ∃ j, j < cm.length ∧ xi.getD k 0 = j ∧ yi.getD k 0 = j ∧
        (cm.getD j []).head? =
          some ((cell_id.insertionSort (fun a b => a ≤ b)).getD k 0)) ∧
    (∀ j, j < cm.length → cm.getD j [] = [] → j ∉ xi) := by
  rcases mapXYToCellId_ok_inv hcm with ⟨hxy, hcmv⟩
  rw [mapXYToCellIndexing_eq_core strict hcm] at hok
  rcases mapIndexingCore_ok_inv hok with ⟨hso, hb, heq, hflen, hxi, hyi⟩
  rw [← hxy] at hxi hyi
  have hcmlen : cm.length = xs.length := by
    rw [hcmv, List.length_map, List.length_zip, hxy, Nat.min_self]
  set m := xs.length with hm
  -- the zipped default index list
  have hzlen : ((List.range m).zip (List.range m)).length = m := by
    simp
  have hcimlen : (cm.map (fun mp => mp.head?)).length = m := by
    rw [List.length_map, hcmlen]
  -- first components of the triples are cells_found
  have hcellsfst : (cellsTriples cm (List.range m) (List.range m)).map
      (fun c => c.1) = foundCells cm := by
    unfold cellsTriples foundCells
    exact cellsTriples_map_fst _ _ (by rw [hcimlen, hzlen])
  -- permutation and sortedness facts
  have hperm : List.Perm
      ((cellsTriples cm (List.range m) (List.range m)).insertionSort tripLE)
      (cellsTriples cm (List.range m) (List.range m)) :=
    List.perm_insertionSort _ _
  have hsorted : List.Sorted tripLE
      ((cellsTriples cm (List.range m) (List.range m)).insertionSort tripLE) :=
    List.sorted_insertionSort _ _
  have hfst_sorted : List.Sorted (fun a b => a ≤ b)
      (((cellsTriples cm (List.range m) (List.range m)).insertionSort
        tripLE).map (fun c => c.1)) := by
    have hp : List.Pairwise tripLE
        ((cellsTriples cm (List.range m) (List.range m)).insertionSort
          tripLE) := hsorted
    exact List.Pairwise.map _ (fun a b hab => by
      rcases hab with h | ⟨e, _⟩
      · exact le_of_lt h
      · exact le_of_eq e) hp
  have hfound_nodup : (foundCells cm).Nodup :=
    nodupOfCardLen _ (by rw [heq, List.toFinset_card_of_nodup hnd, hflen])
  have hfound_perm : List.Perm (foundCells cm) cell_id :=
    List.perm_of_nodup_nodup_toFinset_eq hfound_nodup hnd heq
  have hids_sorted : List.Sorted (fun a b : ℕ => a ≤ b)
      (cell_id.insertionSort (fun a b => a ≤ b)) :=
    List.sorted_insertionSort _ _
  have hperm_ids : List.Perm
      (((cellsTriples cm (List.range m)
        (List.range m)).insertionSort tripLE).map (fun c => c.1))
      (cell_id.insertionSort (fun a b => a ≤ b)) := by
    have h1 : List.Perm
        (((cellsTriples cm (List.range m)
          (List.range m)).insertionSort tripLE).map (fun c => c.1))
        (foundCells cm) := by
      rw [← hcellsfst]
      exact hperm.map _
    exact (h1.trans hfound_perm).trans (List.perm_insertionSort _ _).symm
  have hfst_eq : (((cellsTriples cm (List.range m)
      (List.range m)).insertionSort tripLE).map (fun c => c.1)) =
      cell_id.insertionSort (fun a b => a ≤ b) :=
    List.eq_of_perm_of_sorted hperm_ids hfst_sorted hids_sorted
  have hslen : ((cellsTriples cm (List.range m)
      (List.range m)).insertionSort tripLE).length = cell_id.length := by
    have h1 := congrArg List.length hfst_eq
    simpa [List.length_insertionSort] using h1
  refine ⟨by rw [hxi]; simpa using hslen, by rw [hyi]; simpa using hslen,
    ?_, ?_⟩
  · intro k hk
    have hks : k < ((cellsTriples cm (List.range m)
        (List.range m)).insertionSort tripLE).length := by omega
    obtain ⟨c, hc⟩ : ∃ c, ((cellsTriples cm (List.range m)
        (List.range m)).insertionSort tripLE)[k]? = some c :=
      ⟨_, List.getElem?_eq_getElem hks⟩
    have hcc : c ∈ cellsTriples cm (List.range m) (List.range m) :=
      hperm.subset (List.getElem?_mem hc)
    rcases cellsTriples_mem _ _ _ hcc with ⟨j, hj1, hj2, hj3, hj4⟩
    have hjm : j < m := by rw [hzlen] at hj2; exact hj2
    have hjcm : j < cm.length := by rw [hcmlen]; exact hjm
    have hc2 : c.2 = (j, j) := by rw [← hj4, zip_range_getD m j hjm]
    -- the head of the match list at point j is the id c.1
    obtain ⟨v, hv⟩ : ∃ v, cm[j]? = some v :=
      ⟨_, List.getElem?_eq_getElem hjcm⟩
    have hj3v : v.head? = some c.1 := by
      rw [List.getD_eq_getElem?_getD, List.getElem?_map, hv] at hj3
      simpa using hj3
    have hcmj : cm.getD j [] = v := by
      rw [List.getD_eq_getElem?_getD, hv]
      rfl
    -- the id is the k-th smallest
    have hidk : c.1 = (cell_id.insertionSort (fun a b => a ≤ b)).getD k 0 := by
      have h1 := congrArg (fun l => l.getD k 0) hfst_eq
      simpa [List.getD_eq_getElem?_getD, List.getElem?_map, hc] using h1
    refine ⟨j, hjcm, ?_, ?_, ?_⟩
    · rw [hxi, List.getD_eq_getElem?_getD, List.getElem?_map, hc]
      simp [hc2]
    · rw [hyi, List.getD_eq_getElem?_getD, List.getElem?_map, hc]
      simp [hc2]
    · rw [hcmj, hj3v, hidk]
  · intro j hjcm hjnil hjin
    rw [hxi] at hjin
    rcases List.mem_map.mp hjin with ⟨c, hcs, hcval⟩
    have hcc : c ∈ cellsTriples cm (List.range m) (List.range m) :=
      hperm.subset hcs
    rcases cellsTriples_mem _ _ _ hcc with ⟨j2, hj1, hj2, hj3, hj4⟩
    have hj2m : j2 < m := by rw [hzlen] at hj2; exact hj2
    have hc2 : c.2 = (j2, j2) := by rw [← hj4, zip_range_getD m j2 hj2m]
    have hjj : j2 = j := by rw [hc2] at hcval; simpa using hcval
    subst hjj
    have hnone : (cm.map (fun mp => mp.head?)).getD j2 none = none := by
      rw [List.getD_eq_getElem?_getD, List.getElem?_map,
        List.getElem?_eq_getElem hjcm]
      have : cm[j2] = [] := by
        have h5 : cm.getD j2 [] = cm[j2] := by
          rw [List.getD_eq_getElem?_getD, List.getElem?_eq_getElem hjcm]
          rfl
        rw [← h5, hjnil]
      simp [this]
    rw [hnone] at hj3
    cases hj3

/-- Witness for C4 on a one-cell grid with one interior point. -/
theorem claim_C4_bijective_witness :
    ([0] : List ℕ).Nodup ∧
    mapXYToCellId [0] [fun (_ : ℕ × ℕ) => true] [5] [7] = .ok [[0]] ∧
    (∀ mp ∈ ([[0]] : List (List ℕ)), mp.length ≤ 1) ∧
    ¬((true = true) ∧ ∃ mp ∈ ([[0]] : List (List ℕ)), mp = []) ∧
    (((foundCells [[0]]).toFinset ≠ ([0] : List ℕ).toFinset →
      mapXYToCellIndexing [0] [fun (_ : ℕ × ℕ) => true] [5] [7]
          none none true =
        .error "Mapped points do not cover all cells.") ∧
    ((foundCells [[0]]).toFinset = ([0] : List ℕ).toFinset →
      ¬(foundCells [[0]]).Nodup →
      mapXYToCellIndexing [0] [fun (_ : ℕ × ℕ) => true] [5] [7]
          none none true =
        .error "Some cells contain more than one point.") ∧
    (∀ xi yi, mapXYToCellIndexing [0] [fun (_ : ℕ × ℕ) => true] [5] [7]
          none none true = .ok (xi, yi) →
      (foundCells [[0]]).toFinset = ([0] : List ℕ).toFinset ∧
        (foundCells [[0]]).Nodup)) :=
  ⟨by decide, rfl, by decide, by decide,
   claim_C4_bijective ℕ ℕ [0] [fun _ => true] [5] [7] true [[0]]
     (by decide) rfl (by decide) (by decide)⟩

/-- Witness for C5 on a one-cell grid with one interior point. -/
theorem claim_C5_point_match_outcomes_witness :
    mapXYToCellId [0] [fun (_ : ℕ × ℕ) => true] [1] [2] = .ok [[0]] ∧
    (([1].zip [2] : List (ℕ × ℕ))[0]? = some (1, 2)) ∧
    ((([0].zip [fun (_ : ℕ × ℕ) => true]).countP (fun ip => ip.2 (1, 2)) = 1 →
      ∃ c, ([[0]] : List (List ℕ))[0]? = some [c]) ∧
    ((([0].zip [fun (_ : ℕ × ℕ) => true]).countP (fun ip => ip.2 (1, 2)) = 0 →
      ([[0]] : List (List ℕ))[0]? = some [] ∧
      (mapXYToCellIndexing [0] [fun (_ : ℕ × ℕ) => true] [1] [2]
          none none true =
          .error "Mapped points fall outside grid." ↔ true = true)) ∧
    (2 ≤ ([0].zip [fun (_ : ℕ × ℕ) => true]).countP (fun ip => ip.2 (1, 2)) →
      (∃ mp, ([[0]] : List (List ℕ))[0]? = some mp ∧ 2 ≤ mp.length) ∧
      (¬((true = true) ∧ ∃ mp ∈ ([[0]] : List (List ℕ)), mp = []) →
        mapXYToCellIndexing [0] [fun (_ : ℕ × ℕ) => true] [1] [2]
            none none true =
          .error "Mapped points fall on cell boundaries.")))) :=
  ⟨rfl, rfl,
   claim_C5_point_match_outcomes ℕ ℕ [0] [fun _ => true] [1] [2] true [[0]] 0 (1, 2)
     rfl rfl⟩

/-- Witness for C9 on a one-cell grid with one interior point. -/
theorem claim_C9_indexing_sorted_by_cell_id_witness :
    ([0] : List ℕ).Nodup ∧
    mapXYToCellId [0] [fun (_ : ℕ × ℕ) => true] [3] [4] = .ok [[0]] ∧
    mapXYToCellIndexing [0] [fun (_ : ℕ × ℕ) => true] [3] [4]
        none none true = .ok ([0], [0]) ∧
    (([0] : List ℕ).length = ([0] : List ℕ).length ∧
     ([0] : List ℕ).length = ([0] : List ℕ).length ∧
     (∀ k, k < ([0] : List ℕ).length →
       ∃ j, j < ([[0]] : List (List ℕ)).length ∧
         ([0] : List ℕ).getD k 0 = j ∧ ([0] : List ℕ).getD k 0 = j ∧
         (([[0]] : List (List ℕ)).getD j []).head? =
           some ((([0] : List ℕ).insertionSort (fun a b => a ≤ b)).getD k 0)) ∧
     (∀ j, j < ([[0]] : List (List ℕ)).length →
       ([[0]] : List (List ℕ)).getD j [] = [] → j ∉ ([0] : List ℕ))) :=
  ⟨by decide, rfl, rfl,
   claim_C9_indexing_sorted_by_cell_id ℕ ℕ [0] [fun _ => true] [3] [4] true [[0]] [0] [0]
     (by decide) rfl rfl⟩
